/-
Verification of the BaudLink serial-port session layer
(internal/serial: manager, continuous reader, scanner, line reader).

The Go code is shallowly embedded: maps are association lists, the
hardware transport is an oracle whose outcomes are passed as explicit
parameters (the Go calls `serial.Open`, `port.Read`, ... are external
effects), timestamps are naturals, and byte slices are lists of
naturals.  Each definition mirrors the corresponding Go function.
-/
import Mathlib

namespace BaudLink

/-! ## Errors (manager.go, `var (...)` error block) -/

/-- The error values of package `serial`, plus `hardware msg` for an
opaque error reported by the underlying transport (in Go, any other
`error` value, possibly wrapped with `fmt.Errorf("...: %w", err)`). -/
inductive SerialError where
  | portNotFound
  | portAlreadyOpen
  | portNotOpen
  | portLocked
  | invalidSession
  | invalidConfig (msg : String)
  | writeTimeout
  | readTimeout
  | portClosed
  | hardware (msg : String)
  deriving DecidableEq, Repr

/-! ## Configuration (manager.go, `PortConfig`) -/

inductive Parity where
  | none | odd | even | mark | space
  deriving DecidableEq, Repr

inductive StopBits where
  | one | oneHalf | two
  deriving DecidableEq, Repr

inductive FlowControl where
  | none | hardware | software
  deriving DecidableEq, Repr

/-- `PortConfig` from manager.go. Go `int` fields become `Int`. -/
structure PortConfig where
  baudRate : Int
  dataBits : Int
  stopBits : StopBits
  parity : Parity
  flowControl : FlowControl
  readTimeoutMs : Int
  writeTimeoutMs : Int
  deriving DecidableEq, Repr

/-- `DefaultConfig` from manager.go. -/
def DefaultConfig : PortConfig :=
  { baudRate := 9600, dataBits := 8, stopBits := .one, parity := .none,
    flowControl := .none, readTimeoutMs := 1000, writeTimeoutMs := 1000 }

/-- `PortConfig.Validate` from manager.go: `none` means valid (Go `nil`
error), `some e` the returned error. -/
def PortConfig.Validate (c : PortConfig) : Option SerialError :=
  if c.baudRate < 1 then
    some (.invalidConfig "invalid baud rate")
  else if c.dataBits < 5 || c.dataBits > 8 then
    some (.invalidConfig "invalid data bits")
  else
    none

/-! ## Sessions and statistics (manager.go) -/

/-- `PortStatistics` from manager.go; timestamps are abstract naturals. -/
structure PortStatistics where
  bytesSent : Nat
  bytesReceived : Nat
  errors : Nat
  openedAt : Nat
  lastActivity : Nat
  deriving DecidableEq, Repr

/-- `Session` from manager.go.  The `port serial.Port` handle is the
hardware oracle and is not part of the value state; `readers` keeps the
subscriber channels as abstract channel identifiers. -/
structure Session where
  id : String
  portName : String
  clientID : String
  exclusive : Bool
  config : PortConfig
  statistics : PortStatistics
  closed : Bool
  readers : List Nat
  deriving DecidableEq, Repr

/-! ## Association-list maps

Go `map[string]*Session` becomes an association list; assignment
`m[k] = v` overwrites any previous binding, `delete(m, k)` removes it. -/

/-- `delete(m, k)` on a Go map. -/
def eraseKey (k : String) : List (String × Session) → List (String × Session)
  | [] => []
  | (k', v) :: rest => if k' = k then eraseKey k rest else (k', v) :: eraseKey k rest

/-- `m[k] = v` on a Go map (overwrite semantics). -/
def insertKey (k : String) (v : Session) (m : List (String × Session)) :
    List (String × Session) :=
  (k, v) :: eraseKey k m

/-- `m[k]` lookup on a Go map. -/
def lookupKey (k : String) : List (String × Session) → Option Session
  | [] => none
  | (k', v) :: rest => if k' = k then some v else lookupKey k rest

/-! ## The Manager (manager.go) -/

/-- `Manager` from manager.go (the two mutexes synchronize goroutines
and have no value-level content). -/
structure Manager where
  sessions : List (String × Session)
  sessionsByID : List (String × Session)
  allowSharedAccess : Bool
  defaultConfig : PortConfig
  deriving DecidableEq, Repr

/-- `NewManager` from manager.go. -/
def NewManager (allowSharedAccess : Bool) (defaultConfig : PortConfig) : Manager :=
  { sessions := [], sessionsByID := [],
    allowSharedAccess := allowSharedAccess, defaultConfig := defaultConfig }

/-- The session `Manager.OpenPort` builds on success (manager.go,
`session := &Session{...}`). -/
def newSession (portName clientID : String) (config : PortConfig)
    (exclusive : Bool) (newID : String) (now : Nat) : Session :=
  { id := newID, portName := portName, clientID := clientID,
    exclusive := exclusive, config := config,
    statistics := { bytesSent := 0, bytesReceived := 0, errors := 0,
                    openedAt := now, lastActivity := now },
    closed := false, readers := [] }

/-- The tail of `Manager.OpenPort` after the lock check: open the
hardware port, apply the read timeout when non-zero, build the session
and register it under both keys. -/
def Manager.openPortHW (m : Manager) (portName : String) (config : PortConfig)
    (clientID : String) (exclusive : Bool)
    (hwOpen : Option String) (hwSetTimeout : Option String)
    (newID : String) (now : Nat) : Except SerialError (Session × Manager) :=
  -- Open the serial port
  match hwOpen with
  | some e => .error (.hardware ("failed to open port: " ++ e))
  | none =>
    -- Set read timeout
    match (if config.readTimeoutMs > 0 then hwSetTimeout else none) with
    | some e => .error (.hardware ("failed to set read timeout: " ++ e))
    | none =>
      .ok (newSession portName clientID config exclusive newID now,
           { m with
               sessions := insertKey portName
                 (newSession portName clientID config exclusive newID now) m.sessions,
               sessionsByID := insertKey newID
                 (newSession portName clientID config exclusive newID now) m.sessionsByID })

/-- `Manager.OpenPort` from manager.go.  Hardware outcomes are inputs:
`hwOpen` is the error of `serial.Open` (`none` = success), `hwSetTimeout`
the error of `port.SetReadTimeout`; `newID` is the fresh UUID produced by
`uuid.New().String()`; `now` the value of `time.Now()`. -/
def Manager.openPort (m : Manager) (portName : String) (config : PortConfig)
    (clientID : String) (exclusive : Bool)
    (hwOpen : Option String) (hwSetTimeout : Option String)
    (newID : String) (now : Nat) : Except SerialError (Session × Manager) :=
  match config.Validate with
  | some e => .error e
  | none =>
    -- Check if port is already open
    match lookupKey portName m.sessions with
    | some existingSession =>
      if existingSession.exclusive || exclusive || !m.allowSharedAccess then
        .error .portLocked
      else
        m.openPortHW portName config clientID exclusive hwOpen hwSetTimeout newID now
    | none =>
      m.openPortHW portName config clientID exclusive hwOpen hwSetTimeout newID now

/-- `Manager.closeSessionLocked` from manager.go: sets the closed flag,
closes every reader channel, closes the hardware port (`hwClose` is its
error), and deletes the session from both tables.  Returns the hardware
close error (Go returns `err`) together with the new state. -/
def Manager.closeSessionLocked (m : Manager) (session : Session)
    (hwClose : Option String) : Option SerialError × Manager :=
  (hwClose.map .hardware,
   { m with sessions := eraseKey session.portName m.sessions,
            sessionsByID := eraseKey session.id m.sessionsByID })

/-- `Manager.ClosePort` from manager.go. -/
def Manager.closePort (m : Manager) (portName : String) (sessionID : String)
    (hwClose : Option String) : Option SerialError × Manager :=
  match lookupKey portName m.sessions with
  | none => (some .portNotOpen, m)
  | some session =>
    if session.id ≠ sessionID then (some .invalidSession, m)
    else m.closeSessionLocked session hwClose

/-- `Manager.ValidateSession` from manager.go. -/
def Manager.validateSession (m : Manager) (portName : String) (sessionID : String) :
    Except SerialError Session :=
  match lookupKey portName m.sessions with
  | none => .error .portNotOpen
  | some session =>
    if session.id ≠ sessionID then .error .invalidSession
    else if session.closed then .error .portClosed
    else .ok session

/-- Replace the (shared, in Go pointer-aliased) session object in both
lookup tables after a field mutation. -/
def Manager.updateSession (m : Manager) (s : Session) : Manager :=
  { m with sessions := insertKey s.portName s m.sessions,
           sessionsByID := insertKey s.id s m.sessionsByID }

/-- `Manager.Write` from manager.go.  `hwWrite = (n, err)` is the result
of `session.port.Write(data)`; on error the error counter is bumped and
`(n, err)` is returned unchanged, on success `BytesSent` and
`LastActivity` are updated. -/
def Manager.write (m : Manager) (portName : String) (sessionID : String)
    (data : List Nat) (hwWrite : Nat × Option String) (now : Nat) :
    (Nat × Option SerialError) × Manager :=
  match m.validateSession portName sessionID with
  | .error e => ((0, some e), m)
  | .ok session =>
    let (n, err) := hwWrite
    match err with
    | some e =>
      let s' := { session with statistics :=
                    { session.statistics with errors := session.statistics.errors + 1 } }
      ((n, some (.hardware e)), m.updateSession s')
    | none =>
      let s' := { session with statistics :=
                    { session.statistics with
                        bytesSent := session.statistics.bytesSent + n,
                        lastActivity := now } }
      ((n, none), m.updateSession s')

/-- `Manager.Read` from manager.go.  `hwRead` is the outcome of
`session.port.Read(buffer)`: `.ok bytes` are the `n` bytes the driver
placed in the buffer (so the Go return `buffer[:n]`), `.error e` its
error, upon which the error counter is bumped and `nil, err` returned. -/
def Manager.read (m : Manager) (portName : String) (sessionID : String)
    (maxBytes : Nat) (hwRead : Except String (List Nat)) (now : Nat) :
    Except SerialError (List Nat) × Manager :=
  match m.validateSession portName sessionID with
  | .error e => (.error e, m)
  | .ok session =>
    match hwRead with
    | .error e =>
      let s' := { session with statistics :=
                    { session.statistics with errors := session.statistics.errors + 1 } }
      (.error (.hardware e), m.updateSession s')
    | .ok bytes =>
      let s' := { session with statistics :=
                    { session.statistics with
                        bytesReceived := session.statistics.bytesReceived + bytes.length,
                        lastActivity := now } }
      (.ok bytes, m.updateSession s')

/-- `Manager.Configure` from manager.go.  `hwSetMode` / `hwSetTimeout`
are the errors of `port.SetMode` and `port.SetReadTimeout`.  On success
only `session.Config` is replaced (statistics are untouched). -/
def Manager.configure (m : Manager) (portName : String) (sessionID : String)
    (config : PortConfig) (hwSetMode : Option String) (hwSetTimeout : Option String) :
    Option SerialError × Manager :=
  match m.validateSession portName sessionID with
  | .error e => (some e, m)
  | .ok session =>
    match config.Validate with
    | some e => (some e, m)
    | none =>
      match hwSetMode with
      | some e => (some (.hardware ("failed to configure port: " ++ e)), m)
      | none =>
        match (if config.readTimeoutMs > 0 then hwSetTimeout else none) with
        | some e => (some (.hardware ("failed to set read timeout: " ++ e)), m)
        | none =>
          let s' := { session with config := config }
          (none, m.updateSession s')

/-- `Manager.Flush` from manager.go (`ResetInputBuffer`, error `hwFlush`). -/
def Manager.flush (m : Manager) (portName : String) (sessionID : String)
    (hwFlush : Option String) : Option SerialError × Manager :=
  match m.validateSession portName sessionID with
  | .error e => (some e, m)
  | .ok _ => (hwFlush.map .hardware, m)

/-- `Manager.CloseAll` from manager.go: best-effort close of every live
session (`closeSessionLocked` on each entry of `sessions`), ignoring the
close errors. -/
def Manager.closeAll (m : Manager) : Manager :=
  m.sessions.foldl (fun acc entry => (acc.closeSessionLocked entry.2 none).2) m

/-! ## Traces of manager operations

An `Op` packages one public manager call together with the outcomes of
the hardware calls it performs (and, for `open`, the fresh UUID); a
trace of `Op`s drives the manager state forward. -/

inductive Op where
  | openPort (portName : String) (config : PortConfig) (clientID : String)
      (exclusive : Bool) (hwOpen hwSetTimeout : Option String)
      (newID : String) (now : Nat)
  | closePort (portName sessionID : String) (hwClose : Option String)
  | read (portName sessionID : String) (maxBytes : Nat)
      (hwRead : Except String (List Nat)) (now : Nat)
  | write (portName sessionID : String) (data : List Nat)
      (hwWrite : Nat × Option String) (now : Nat)
  | configure (portName sessionID : String) (config : PortConfig)
      (hwSetMode hwSetTimeout : Option String)
  | flush (portName sessionID : String) (hwFlush : Option String)
  | closeAll

/-- The manager state after one call. -/
def Manager.step (m : Manager) : Op → Manager
  | .openPort pn cfg cid ex hwO hwT nid now =>
    match m.openPort pn cfg cid ex hwO hwT nid now with
    | .ok (_, m') => m'
    | .error _ => m
  | .closePort pn sid hwC => (m.closePort pn sid hwC).2
  | .read pn sid mb hw now => (m.read pn sid mb hw now).2
  | .write pn sid data hw now => (m.write pn sid data hw now).2
  | .configure pn sid cfg hwM hwT => (m.configure pn sid cfg hwM hwT).2
  | .flush pn sid hwF => (m.flush pn sid hwF).2
  | .closeAll => m.closeAll

/-- The manager state after a trace of calls. -/
def Manager.run (m : Manager) : List Op → Manager
  | [] => m
  | op :: ops => (m.step op).run ops

/-- `sid` is not the identifier of any session registered by port name
(`uuid.New()` never re-issues an identifier, so this holds for every
closed session's identifier from the close on). -/
def idFreeByName (m : Manager) (sid : String) : Prop :=
  ∀ pn s, lookupKey pn m.sessions = some s → s.id ≠ sid

/-- `sid` is absent from the by-identifier table as well. -/
def idFreeByID (m : Manager) (sid : String) : Prop :=
  lookupKey sid m.sessionsByID = none

/-- The trace never opens a session under the identifier `sid`
(uuid freshness: identifiers are never reused). -/
def Op.avoidsID (sid : String) : Op → Prop
  | .openPort _ _ _ _ _ _ nid _ => nid ≠ sid
  | _ => True

/-! ## Continuous Reader (reader.go) -/

/-- `DataEvent` from reader.go; the `Sequence uint32` field is a natural
kept below `2^32` by the wrap-around of `atomic.AddUint32`. -/
structure DataEvent where
  data : List Nat
  timestamp : Nat
  sequence : Nat
  error : Option SerialError
  deriving DecidableEq, Repr

/-- What a `readLoop` iteration decides to do next. -/
inductive LoopOutcome where
  | stop
  | continueLoop (backoff : Bool)
  deriving DecidableEq, Repr

/-- One iteration of `Reader.readLoop` (reader.go), after the
`manager.Read` call returned `res` at time `now` with the sequence
counter at `seq`.  Returns the event broadcast to the subscribers (if
any), the new value of the counter, and whether the loop stops
(`r.Stop()`, which closes every subscriber channel) or keeps looping —
with a 10 ms backoff sleep exactly when a non-fatal error occurred. -/
def readLoopIter (res : Except SerialError (List Nat)) (seq : Nat) (now : Nat) :
    Option DataEvent × Nat × LoopOutcome :=
  match res with
  | .ok data =>
    -- Skip if no data (timeout with no data is normal)
    if data = [] then (none, seq, .continueLoop false)
    else
      let seq' := (seq + 1) % 2 ^ 32
      (some { data := data, timestamp := now, sequence := seq', error := none },
       seq', .continueLoop false)
  | .error e =>
    -- Manager.Read returns nil data alongside an error
    let seq' := (seq + 1) % 2 ^ 32
    (some { data := [], timestamp := now, sequence := seq', error := some e },
     seq',
     if e = .portClosed || e = .invalidSession then .stop
     else .continueLoop true)

/-- A whole run of `Reader.readLoop` over a finite trace of
`manager.Read` outcomes (each paired with the `time.Now()` of its
iteration), starting from sequence counter `seq`; yields the list of
events broadcast, cut short when an iteration stops the loop. -/
def readLoopRun (results : List (Except SerialError (List Nat) × Nat)) (seq : Nat) :
    List DataEvent :=
  match results with
  | [] => []
  | (res, now) :: rest =>
    match readLoopIter res seq now with
    | (none, seq', _) => readLoopRun rest seq'
    | (some ev, seq', .stop) => [ev]
    | (some ev, seq', .continueLoop _) => ev :: readLoopRun rest seq'

/-! ## Line Reader (reader.go) -/

/-- `LineReader.ReadLine` from reader.go.  The subscription channel is a
finite list of `DataEvent`s, its closure being the end of the list.
Returns the Go pair `(line, err)` as an `Except`, together with the
value of `lr.buffer` after the call.  Each loop iteration first scans
the buffer for a delimiter and only then receives; the scan is written
once per shape of the remaining event list. -/
def readLine (delimiter : Nat) (maxLine : Nat) :
    List Nat → List DataEvent → Except SerialError (List Nat) × List Nat
  | buffer, [] =>
    -- Check buffer for existing line
    match buffer.findIdx? (fun b => b = delimiter) with
    | some i => (.ok (buffer.take i), buffer.drop (i + 1))
    | none =>
      -- Channel closed
      if buffer.isEmpty then (.error .portClosed, buffer)
      else (.ok buffer, [])
  | buffer, event :: rest =>
    -- Check buffer for existing line
    match buffer.findIdx? (fun b => b = delimiter) with
    | some i => (.ok (buffer.take i), buffer.drop (i + 1))
    | none =>
      -- Wait for more data
      match event.error with
      | some e => (.error e, buffer)
      | none =>
        -- Append to buffer, check for overflow
        let buffer' := buffer ++ event.data
        if buffer'.length > maxLine then (.ok buffer', [])
        else readLine delimiter maxLine buffer' rest

/-! ## Scanner (scanner.go) -/

inductive PortType where
  | unknown | usb | native | bluetooth | virtual
  deriving DecidableEq, Repr

/-- The `enumerator.PortDetails` record consumed from the OS port
enumerator (the fields scanner.go reads). -/
structure PortDetails where
  name : String
  product : String
  serialNumber : String
  vid : String
  pid : String
  isUSB : Bool
  deriving DecidableEq, Repr

/-- `PortInfo` from scanner.go (the fields `Scan` fills in). -/
structure PortInfo where
  name : String
  description : String
  hardwareID : String
  manufacturer : String
  product : String
  serialNumber : String
  vid : String
  pid : String
  portType : PortType
  isOpen : Bool
  lockedBy : String
  deriving DecidableEq, Repr

/-- `Scanner` from scanner.go.  The compiled exclude regexes become
match predicates, and `detectPortType`'s OS-specific regex heuristics
(on `runtime.GOOS`) are abstracted into the `detect` field; neither
influences anything but the filtering / `PortType` value. -/
structure Scanner where
  excludePatterns : List (String → Bool)
  detect : PortDetails → PortType
  manager : Option Manager

/-- `Scanner.isExcluded` from scanner.go. -/
def Scanner.isExcluded (s : Scanner) (name : String) : Bool :=
  s.excludePatterns.any (fun pattern => pattern name)

/-- `Scanner.buildDescription` from scanner.go. -/
def Scanner.buildDescription (_s : Scanner) (port : PortDetails) : String :=
  if port.product ≠ "" then port.product
  else if port.isUSB then "USB Serial Device"
  else "Serial Port"

/-- The `PortInfo` that `Scanner.Scan` builds for one enumerated port
(scanner.go, loop body): hardware id from VID/PID, description,
open/locked flags cross-referenced against the manager's registry via
`GetSession`. -/
def Scanner.buildInfo (s : Scanner) (port : PortDetails) : PortInfo :=
  let base : PortInfo :=
    { name := port.name, description := s.buildDescription port,
      hardwareID := if port.vid ≠ "" && port.pid ≠ "" then
          "USB\\VID_" ++ port.vid ++ "&PID_" ++ port.pid else "",
      manufacturer := "", product := port.product,
      serialNumber := port.serialNumber, vid := port.vid, pid := port.pid,
      portType := s.detect port, isOpen := false, lockedBy := "" }
  match s.manager with
  | none => base
  | some m =>
    match lookupKey port.name m.sessions with
    | some session => { base with isOpen := true, lockedBy := session.clientID }
    | none => base

/-- The ordering `sort.Slice` uses in `Scanner.Scan`: ascending port
name. -/
def portInfoLE (a b : PortInfo) : Prop := a.name ≤ b.name

instance : DecidableRel portInfoLE := fun a b => by
  unfold portInfoLE; infer_instance

instance : IsTotal PortInfo portInfoLE :=
  ⟨fun a b => le_total a.name b.name⟩

instance : IsTrans PortInfo portInfoLE :=
  ⟨fun _ _ _ h h' => le_trans h h'⟩

/-- `Scanner.Scan` from scanner.go, as a function of the port list the
OS enumerator reported: exclude-filter, build each `PortInfo`, sort by
name.  (The result is also stored in `cachedPorts`; the cache plays no
role here.) -/
def Scanner.scan (s : Scanner) (enumerated : List PortDetails) : List PortInfo :=
  let result := (enumerated.filter (fun port => !s.isExcluded port.name)).map s.buildInfo
  List.insertionSort portInfoLE result

/-- `Scanner.portsEqual` from scanner.go: same length, and at each index
the same name and the same open flag. -/
def Scanner.portsEqual (_s : Scanner) (a b : List PortInfo) : Bool :=
  a.length == b.length &&
    (a.zip b).all (fun p => p.1.name == p.2.name && p.1.isOpen == p.2.isOpen)

/-- The polling loop of `Scanner.WatchPorts` (scanner.go): on each tick
a scan is attempted (`ticks` lists the outcomes: `none` when `Scan`
errored, in which case the loop `continue`s); when the new list differs
from `lastPorts` under `portsEqual`, the callback fires with it.
Returns the list of callback payloads in order. -/
def Scanner.watchLoop (s : Scanner) (lastPorts : List PortInfo)
    (ticks : List (Option (List PortInfo))) : List (List PortInfo) :=
  match ticks with
  | [] => []
  | none :: rest => s.watchLoop lastPorts rest
  | some ports :: rest =>
    if !s.portsEqual lastPorts ports then ports :: s.watchLoop ports rest
    else s.watchLoop lastPorts rest

/-- `Scanner.WatchPorts` from scanner.go: for `interval <= 0` the stop
handle is returned before the polling goroutine is started, so no tick
is ever processed; otherwise the loop runs with `lastPorts` initially
nil.  Returns `(number of ticks processed, callback payloads)`. -/
def Scanner.watchPorts (s : Scanner) (interval : Int)
    (ticks : List (Option (List PortInfo))) : Nat × List (List PortInfo) :=
  if interval ≤ 0 then (0, [])
  else (ticks.length, s.watchLoop [] ticks)

/-! ## A concrete scenario

A manager with shared access enabled, on which `COM1` has been opened
non-exclusively by client `alice` (all hardware calls succeeding, fresh
identifier `id-1`, clock at 0). -/

def demoSession : Session := newSession "COM1" "alice" DefaultConfig false "id-1" 0

def demoManager : Manager :=
  (NewManager true DefaultConfig).step
    (.openPort "COM1" DefaultConfig "alice" false none none "id-1" 0)

/-- A scanner with no exclude patterns and no attached manager. -/
def demoScanner : Scanner :=
  { excludePatterns := [], detect := fun _ => PortType.native, manager := none }

/-! ## Map lemmas -/

theorem lookupKey_eraseKey_self (k : String) (m : List (String × Session)) :
    lookupKey k (eraseKey k m) = none := by
  induction m with
  | nil => rfl
  | cons hd tl ih =>
    obtain ⟨k', v⟩ := hd
    by_cases h : k' = k <;> simp [eraseKey, lookupKey, h, ih]

theorem lookupKey_eraseKey_ne (k k' : String) (m : List (String × Session))
    (h : k' ≠ k) : lookupKey k' (eraseKey k m) = lookupKey k' m := by
  induction m with
  | nil => rfl
  | cons hd tl ih =>
    obtain ⟨k'', v⟩ := hd
    by_cases h1 : k'' = k
    · subst h1
      simp [eraseKey, lookupKey, Ne.symm h, ih]
    · by_cases h2 : k'' = k' <;> simp [eraseKey, lookupKey, h1, h2, h, ih]

theorem lookupKey_insertKey_self (k : String) (v : Session)
    (m : List (String × Session)) : lookupKey k (insertKey k v m) = some v := by
  simp [insertKey, lookupKey]

theorem lookupKey_insertKey_ne (k k' : String) (v : Session)
    (m : List (String × Session)) (h : k' ≠ k) :
    lookupKey k' (insertKey k v m) = lookupKey k' m := by
  simp [insertKey, lookupKey, Ne.symm h, lookupKey_eraseKey_ne k k' m h]

/-! ## OpenPort inversion -/

/-- `openPortHW` never fails with `PortLocked` (its failures are wrapped
hardware errors). -/
theorem Manager.openPortHW_ne_portLocked (m : Manager) (pn cid : String)
    (cfg : PortConfig) (ex : Bool) (hwO hwT : Option String) (nid : String)
    (now : Nat) :
    m.openPortHW pn cfg cid ex hwO hwT nid now ≠ .error .portLocked := by
  unfold Manager.openPortHW
  split
  · simp
  · split <;> simp

/-- For a valid config and a registered existing session, `OpenPort`
reduces to the lock check followed by the hardware tail. -/
theorem Manager.openPort_eq_of_exists (m : Manager) (pn cid : String)
    (cfg : PortConfig) (ex : Bool) (hwO hwT : Option String) (nid : String)
    (now : Nat) (existing : Session)
    (hex : lookupKey pn m.sessions = some existing)
    (hcfg : cfg.Validate = none) :
    m.openPort pn cfg cid ex hwO hwT nid now =
      if existing.exclusive || ex || !m.allowSharedAccess then
        .error .portLocked
      else m.openPortHW pn cfg cid ex hwO hwT nid now := by
  unfold Manager.openPort
  rw [hcfg, hex]

/-- Unfolding a successful `OpenPort`: the session is freshly built with
the given identifier, config and timestamps, and is registered under
both its port name and its identifier. -/
theorem Manager.openPort_ok (m : Manager) (pn cid : String) (cfg : PortConfig)
    (ex : Bool) (hwO hwT : Option String) (nid : String) (now : Nat)
    (s : Session) (m' : Manager)
    (h : m.openPort pn cfg cid ex hwO hwT nid now = .ok (s, m')) :
    s = newSession pn cid cfg ex nid now
    ∧ m' = { m with sessions := insertKey pn s m.sessions,
                    sessionsByID := insertKey nid s m.sessionsByID } := by
  unfold Manager.openPort Manager.openPortHW at h
  split at h
  · exact absurd h (by simp)
  · split at h
    · split at h
      · exact absurd h (by simp)
      · split at h
        · exact absurd h (by simp)
        · split at h
          · exact absurd h (by simp)
          · simp only [Except.ok.injEq, Prod.mk.injEq] at h
            obtain ⟨hs, hm⟩ := h
            subst hs
            exact ⟨rfl, hm.symm⟩
    · split at h
      · exact absurd h (by simp)
      · split at h
        · exact absurd h (by simp)
        · simp only [Except.ok.injEq, Prod.mk.injEq] at h
          obtain ⟨hs, hm⟩ := h
          subst hs
          exact ⟨rfl, hm.symm⟩

/-- The result of `OpenPort` is `PortLocked` exactly when the lock
condition of the existing session holds (for a valid config). -/
theorem Manager.openPort_locked_of_cond (m : Manager) (pn cid : String)
    (cfg : PortConfig) (ex : Bool) (hwO hwT : Option String) (nid : String)
    (now : Nat) (existing : Session)
    (hex : lookupKey pn m.sessions = some existing)
    (hcfg : cfg.Validate = none) :
    m.openPort pn cfg cid ex hwO hwT nid now = .error .portLocked ↔
      (existing.exclusive || ex || !m.allowSharedAccess) = true := by
  rw [Manager.openPort_eq_of_exists m pn cid cfg ex hwO hwT nid now existing hex hcfg]
  by_cases h : (existing.exclusive || ex || !m.allowSharedAccess) = true
  · simp [h]
  · rw [if_neg (by simpa using h)]
    constructor
    · intro hres
      exact absurd hres (Manager.openPortHW_ne_portLocked m pn cid cfg ex hwO hwT nid now)
    · intro hres
      exact absurd hres h

/-- C1: with a session already registered for `portName` (and a config
that passes validation, validation being checked first), `OpenPort`
fails with `PortLocked` exactly when the existing session is exclusive,
or the request is exclusive, or shared access is disabled; hence a
second exclusive open always fails with `PortLocked` whatever the
shared-access setting, and a second open can succeed only when shared
access is enabled and neither side is exclusive. -/
theorem openPort_locking (m : Manager) (pn cid : String) (cfg : PortConfig)
    (ex : Bool) (hwO hwT : Option String) (nid : String) (now : Nat)
    (existing : Session)
    (hex : lookupKey pn m.sessions = some existing)
    (hcfg : cfg.Validate = none) :
    (m.openPort pn cfg cid ex hwO hwT nid now = .error .portLocked ↔
      (existing.exclusive || ex || !m.allowSharedAccess) = true)
    ∧ (ex = true → m.openPort pn cfg cid ex hwO hwT nid now = .error .portLocked)
    ∧ (∀ s' m', m.openPort pn cfg cid ex hwO hwT nid now = .ok (s', m') →
        m.allowSharedAccess = true ∧ existing.exclusive = false ∧ ex = false) := by
  have hiff := Manager.openPort_locked_of_cond m pn cid cfg ex hwO hwT nid now
      existing hex hcfg
  refine ⟨hiff, ?_, ?_⟩
  · intro hx
    exact hiff.mpr (by simp [hx])
  · intro s' m' hok
    by_cases h : (existing.exclusive || ex || !m.allowSharedAccess) = true
    · rw [hiff.mpr h] at hok
      exact absurd hok (by simp)
    · have h' : (existing.exclusive || ex || !m.allowSharedAccess) = false := by
        simpa using h
      simp only [Bool.or_eq_false_iff] at h'
      obtain ⟨⟨h1, h2⟩, h3⟩ := h'
      exact ⟨by simpa using h3, h1, h2⟩

/-- C2: a successful `OpenPort` is immediately validated by
`ValidateSession` with the returned session's identifier, returning that
very session; any other identifier fails with `InvalidSession`. -/
theorem openPort_validateSession (m : Manager) (pn cid : String)
    (cfg : PortConfig) (ex : Bool) (hwO hwT : Option String) (nid : String)
    (now : Nat) (s : Session) (m' : Manager)
    (h : m.openPort pn cfg cid ex hwO hwT nid now = .ok (s, m')) :
    m'.validateSession pn s.id = .ok s
    ∧ ∀ sid, sid ≠ s.id → m'.validateSession pn sid = .error .invalidSession := by
  obtain ⟨hs, hm⟩ := Manager.openPort_ok m pn cid cfg ex hwO hwT nid now s m' h
  have hlook : lookupKey pn m'.sessions = some s := by
    rw [hm]
    exact lookupKey_insertKey_self pn s m.sessions
  have hclosed : s.closed = false := by rw [hs]; rfl
  constructor
  · unfold Manager.validateSession
    rw [hlook]
    simp [hclosed]
  · intro sid hsid
    unfold Manager.validateSession
    rw [hlook]
    simp [Ne.symm hsid]

/-! ## Session-identifier freshness after close -/

theorem lookupKey_eraseKey_some (k k' : String) (m : List (String × Session))
    (v : Session) (h : lookupKey k' (eraseKey k m) = some v) :
    lookupKey k' m = some v := by
  by_cases hk : k' = k
  · subst hk
    rw [lookupKey_eraseKey_self] at h
    exact absurd h (by simp)
  · rwa [lookupKey_eraseKey_ne k k' m hk] at h

/-- Inversion of a successful `ValidateSession`. -/
theorem Manager.validateSession_ok (m : Manager) (pn sid : String) (s : Session)
    (h : m.validateSession pn sid = .ok s) :
    lookupKey pn m.sessions = some s ∧ s.id = sid ∧ s.closed = false := by
  unfold Manager.validateSession at h
  split at h
  · exact absurd h (by simp)
  · next session heq =>
    split at h
    · exact absurd h (by simp)
    · next hne =>
      split at h
      · exact absurd h (by simp)
      · next hcl =>
        simp only [Except.ok.injEq] at h
        subst h
        exact ⟨heq, by simpa using hne, by simpa using hcl⟩

/-- In a state whose by-name table is free of `sid`, `ValidateSession`
with `sid` fails with `PortNotOpen` or `InvalidSession` on every port. -/
theorem Manager.validateSession_idFree (m : Manager) (sid : String)
    (hfree : idFreeByName m sid) (pn : String) :
    m.validateSession pn sid = .error .portNotOpen
    ∨ m.validateSession pn sid = .error .invalidSession := by
  unfold Manager.validateSession
  cases hl : lookupKey pn m.sessions with
  | none => exact Or.inl rfl
  | some s =>
    right
    have : s.id ≠ sid := hfree pn s hl
    simp [this]

/-- `updateSession` rebinds exactly the session's two keys. -/
theorem lookupKey_updateSession (m : Manager) (s : Session) (pn : String) :
    lookupKey pn (m.updateSession s).sessions =
      if pn = s.portName then some s else lookupKey pn m.sessions := by
  by_cases h : pn = s.portName
  · subst h
    simp [Manager.updateSession, lookupKey_insertKey_self]
  · simp [Manager.updateSession, h, lookupKey_insertKey_ne _ _ _ _ h]

theorem idFreeByName_updateSession (m : Manager) (s : Session) (sid : String)
    (hfree : idFreeByName m sid) (hs : s.id ≠ sid) :
    idFreeByName (m.updateSession s) sid := by
  intro pn s' hl
  rw [lookupKey_updateSession] at hl
  split at hl
  · cases hl
    exact hs
  · exact hfree pn s' hl

theorem idFreeByName_closeSessionLocked (m : Manager) (s : Session)
    (hwC : Option String) (sid : String) (hfree : idFreeByName m sid) :
    idFreeByName (m.closeSessionLocked s hwC).2 sid := by
  intro pn s' hl
  exact hfree pn s' (lookupKey_eraseKey_some _ _ _ _ hl)

/-- Every operation preserves freedom of an identifier that no open in
the trace re-issues. -/
theorem Manager.step_idFree (m : Manager) (op : Op) (sid : String)
    (hfree : idFreeByName m sid) (havoid : op.avoidsID sid) :
    idFreeByName (m.step op) sid := by
  cases op with
  | openPort pn cfg cid ex hwO hwT nid now =>
    simp only [Manager.step]
    cases hr : m.openPort pn cfg cid ex hwO hwT nid now with
    | error e => exact hfree
    | ok res =>
      obtain ⟨s, m'⟩ := res
      obtain ⟨hs, hm⟩ := Manager.openPort_ok m pn cid cfg ex hwO hwT nid now s m' hr
      intro pn' s' hl
      rw [hm] at hl
      by_cases h : pn' = pn
      · subst h
        rw [lookupKey_insertKey_self] at hl
        cases hl
        rw [hs]
        exact havoid
      · rw [lookupKey_insertKey_ne _ _ _ _ h] at hl
        exact hfree pn' s' hl
  | closePort pn sid' hwC =>
    simp only [Manager.step, Manager.closePort]
    split
    · exact hfree
    · split
      · exact hfree
      · exact idFreeByName_closeSessionLocked _ _ _ _ hfree
  | read pn sid' mb hw now =>
    simp only [Manager.step, Manager.read]
    cases hv : m.validateSession pn sid' with
    | error e => exact hfree
    | ok session =>
      have hid : session.id ≠ sid := by
        obtain ⟨hl, _, _⟩ := Manager.validateSession_ok m pn sid' session hv
        exact hfree pn session hl
      cases hw with
      | error e => exact idFreeByName_updateSession _ _ _ hfree hid
      | ok bytes => exact idFreeByName_updateSession _ _ _ hfree hid
  | write pn sid' data hw now =>
    simp only [Manager.step, Manager.write]
    cases hv : m.validateSession pn sid' with
    | error e => exact hfree
    | ok session =>
      have hid : session.id ≠ sid := by
        obtain ⟨hl, _, _⟩ := Manager.validateSession_ok m pn sid' session hv
        exact hfree pn session hl
      obtain ⟨n, err⟩ := hw
      cases err with
      | none => exact idFreeByName_updateSession _ _ _ hfree hid
      | some e => exact idFreeByName_updateSession _ _ _ hfree hid
  | configure pn sid' cfg hwM hwT =>
    simp only [Manager.step, Manager.configure]
    cases hv : m.validateSession pn sid' with
    | error e => exact hfree
    | ok session =>
      have hid : session.id ≠ sid := by
        obtain ⟨hl, _, _⟩ := Manager.validateSession_ok m pn sid' session hv
        exact hfree pn session hl
      cases cfg.Validate with
      | some e => exact hfree
      | none =>
        cases hwM with
        | some e => exact hfree
        | none =>
          cases (if cfg.readTimeoutMs > 0 then hwT else none) with
          | some e => exact hfree
          | none => exact idFreeByName_updateSession _ _ _ hfree hid
  | flush pn sid' hwF =>
    simp only [Manager.step, Manager.flush]
    cases hv : m.validateSession pn sid' with
    | error e => exact hfree
    | ok session => exact hfree
  | closeAll =>
    simp only [Manager.step, Manager.closeAll]
    have hfold : ∀ (l : List (String × Session)) (acc : Manager), idFreeByName acc sid →
        idFreeByName (l.foldl (fun acc entry => (acc.closeSessionLocked entry.2 none).2) acc) sid := by
      intro l
      induction l with
      | nil => intro acc h; exact h
      | cons hd tl ih =>
        intro acc h
        exact ih _ (idFreeByName_closeSessionLocked _ _ _ _ h)
    exact hfold m.sessions m hfree

/-- A whole trace preserves identifier freedom. -/
theorem Manager.run_idFree (m : Manager) (ops : List Op) (sid : String)
    (hfree : idFreeByName m sid) (havoid : ∀ op ∈ ops, op.avoidsID sid) :
    idFreeByName (m.run ops) sid := by
  induction ops generalizing m with
  | nil => exact hfree
  | cons op rest ih =>
    exact ih _ (Manager.step_idFree m op sid hfree (havoid op (by simp)))
      (fun o ho => havoid o (by simp [ho]))

theorem Manager.read_validateError (m : Manager) (pn sid : String) (mb : Nat)
    (hw : Except String (List Nat)) (now : Nat) (e : SerialError)
    (hv : m.validateSession pn sid = .error e) :
    (m.read pn sid mb hw now).1 = .error e := by
  simp only [Manager.read, hv]

theorem Manager.write_validateError (m : Manager) (pn sid : String)
    (data : List Nat) (hw : Nat × Option String) (now : Nat) (e : SerialError)
    (hv : m.validateSession pn sid = .error e) :
    ((m.write pn sid data hw now).1).2 = some e := by
  simp only [Manager.write, hv]

theorem Manager.configure_validateError (m : Manager) (pn sid : String)
    (cfg : PortConfig) (hwM hwT : Option String) (e : SerialError)
    (hv : m.validateSession pn sid = .error e) :
    (m.configure pn sid cfg hwM hwT).1 = some e := by
  simp only [Manager.configure, hv]

/-- C3: once `ClosePort` passes its validation (the port is open under
`pn` and the session identifier matches), the session is removed from
both lookup tables even when the hardware close errors — the error being
returned to the caller — and along any further trace that never re-issues
the old identifier, every `Read`, `Write` and `Configure` with the old
identifier fails with `PortNotOpen` or `InvalidSession`. -/
theorem closePort_invalidates (m : Manager) (pn sid : String)
    (hwC : Option String) (s : Session)
    (hlook : lookupKey pn m.sessions = some s) (hid : s.id = sid)
    (hpn : s.portName = pn)
    (huniq : ∀ pn' s', lookupKey pn' m.sessions = some s' → s'.id = sid → pn' = pn) :
    (m.closePort pn sid hwC).1 = hwC.map SerialError.hardware
    ∧ lookupKey pn (m.closePort pn sid hwC).2.sessions = none
    ∧ lookupKey sid (m.closePort pn sid hwC).2.sessionsByID = none
    ∧ ∀ ops, (∀ op ∈ ops, op.avoidsID sid) → ∀ pn' : String,
        (∀ maxB hw now,
          (((m.closePort pn sid hwC).2.run ops).read pn' sid maxB hw now).1
              = .error .portNotOpen
          ∨ (((m.closePort pn sid hwC).2.run ops).read pn' sid maxB hw now).1
              = .error .invalidSession)
        ∧ (∀ data hw now,
          ((((m.closePort pn sid hwC).2.run ops).write pn' sid data hw now).1).2
              = some .portNotOpen
          ∨ ((((m.closePort pn sid hwC).2.run ops).write pn' sid data hw now).1).2
              = some .invalidSession)
        ∧ (∀ cfg hwM hwT,
          (((m.closePort pn sid hwC).2.run ops).configure pn' sid cfg hwM hwT).1
              = some .portNotOpen
          ∨ (((m.closePort pn sid hwC).2.run ops).configure pn' sid cfg hwM hwT).1
              = some .invalidSession) := by
  have hclose : m.closePort pn sid hwC = m.closeSessionLocked s hwC := by
    simp [Manager.closePort, hlook, hid]
  have hsessions : (m.closePort pn sid hwC).2.sessions = eraseKey pn m.sessions := by
    rw [hclose, Manager.closeSessionLocked, hpn]
  have hfree : idFreeByName (m.closePort pn sid hwC).2 sid := by
    intro pn' s' hl
    rw [hsessions] at hl
    intro hsid
    have hpn' := huniq pn' s' (lookupKey_eraseKey_some pn pn' m.sessions s' hl) hsid
    subst hpn'
    rw [lookupKey_eraseKey_self] at hl
    exact absurd hl (by simp)
  refine ⟨?_, ?_, ?_, ?_⟩
  · rw [hclose, Manager.closeSessionLocked]
  · rw [hsessions]
    exact lookupKey_eraseKey_self pn m.sessions
  · rw [hclose, Manager.closeSessionLocked, hid]
    exact lookupKey_eraseKey_self sid m.sessionsByID
  · intro ops havoid pn'
    have hrunFree : idFreeByName ((m.closePort pn sid hwC).2.run ops) sid :=
      Manager.run_idFree _ ops sid hfree havoid
    have hval := Manager.validateSession_idFree _ sid hrunFree pn'
    refine ⟨?_, ?_, ?_⟩
    · intro maxB hw now
      cases hval with
      | inl h => exact Or.inl (Manager.read_validateError _ _ _ _ _ _ _ h)
      | inr h => exact Or.inr (Manager.read_validateError _ _ _ _ _ _ _ h)
    · intro data hw now
      cases hval with
      | inl h => exact Or.inl (Manager.write_validateError _ _ _ _ _ _ _ h)
      | inr h => exact Or.inr (Manager.write_validateError _ _ _ _ _ _ _ h)
    · intro cfg hwM hwT
      cases hval with
      | inl h => exact Or.inl (Manager.configure_validateError _ _ _ _ _ _ _ h)
      | inr h => exact Or.inr (Manager.configure_validateError _ _ _ _ _ _ _ h)

/-- Witness for the C1 theorem: `COM1` is open non-exclusively with
shared access enabled, yet a second exclusive open fails with
`PortLocked`. -/
theorem openPort_locking_witness :
    lookupKey "COM1" demoManager.sessions = some demoSession
    ∧ DefaultConfig.Validate = none
    ∧ demoManager.openPort "COM1" DefaultConfig "bob" true none none "id-2" 1
        = .error .portLocked :=
  ⟨rfl, rfl,
   (openPort_locking demoManager "COM1" "bob" DefaultConfig true none none
      "id-2" 1 demoSession rfl rfl).2.1 rfl⟩

/-- Witness for the C2 theorem at the concrete open of `COM1`. -/
theorem openPort_validateSession_witness :
    (NewManager true DefaultConfig).openPort "COM1" DefaultConfig "alice" false
        none none "id-1" 0 = .ok (demoSession, demoManager)
    ∧ demoManager.validateSession "COM1" demoSession.id = .ok demoSession
    ∧ demoManager.validateSession "COM1" "id-2" = .error .invalidSession :=
  ⟨rfl,
   (openPort_validateSession (NewManager true DefaultConfig) "COM1" "alice"
      DefaultConfig false none none "id-1" 0 demoSession demoManager rfl).1,
   (openPort_validateSession (NewManager true DefaultConfig) "COM1" "alice"
      DefaultConfig false none none "id-1" 0 demoSession demoManager rfl).2
     "id-2" (by decide)⟩

/-- Witness for the C3 theorem: closing `COM1` with a failing hardware
close returns that error, and after a later re-open of `COM1` under a
fresh identifier, a read with the old identifier still fails. -/
theorem closePort_invalidates_witness :
    (demoManager.closePort "COM1" "id-1" (some "io error")).1
        = some (.hardware "io error")
    ∧ lookupKey "COM1"
        (demoManager.closePort "COM1" "id-1" (some "io error")).2.sessions = none
    ∧ ((((demoManager.closePort "COM1" "id-1" (some "io error")).2.run
          [.openPort "COM1" DefaultConfig "carol" false none none "id-3" 7]).read
          "COM1" "id-1" 64 (.ok [1, 2]) 8).1 = .error .portNotOpen
        ∨ (((demoManager.closePort "COM1" "id-1" (some "io error")).2.run
          [.openPort "COM1" DefaultConfig "carol" false none none "id-3" 7]).read
          "COM1" "id-1" 64 (.ok [1, 2]) 8).1 = .error .invalidSession) := by
  have huniq : ∀ pn' s', lookupKey pn' demoManager.sessions = some s' →
      s'.id = "id-1" → pn' = "COM1" := by
    intro pn' s' h hx
    by_cases hc : pn' = "COM1"
    · exact hc
    · have : lookupKey pn' demoManager.sessions = none := by
        show lookupKey pn' (insertKey "COM1" demoSession []) = none
        rw [lookupKey_insertKey_ne _ _ _ _ hc]
        rfl
      rw [this] at h
      exact absurd h (by simp)
  have havoid : ∀ op ∈ [Op.openPort "COM1" DefaultConfig "carol" false none none
      "id-3" 7], op.avoidsID "id-1" := by
    intro op hop
    rw [List.mem_singleton] at hop
    subst hop
    show ("id-3" : String) ≠ "id-1"
    decide
  have h := closePort_invalidates demoManager "COM1" "id-1" (some "io error")
    demoSession rfl rfl rfl huniq
  exact ⟨h.1, h.2.1,
    (h.2.2.2 [.openPort "COM1" DefaultConfig "carol" false none none "id-3" 7]
      havoid "COM1").1 64 (.ok [1, 2]) 8⟩

/-! ## Continuous Reader: error classification and zero-length reads -/

/-- C4: in the read loop, every error is broadcast as an event; an error
equal to `PortClosed` or `InvalidSession` then stops the loop (the
`Stop` outcome, which closes every subscriber channel), while any other
error keeps the loop running with the short fixed backoff. -/
theorem readLoop_error_classification (e : SerialError) (seq now : Nat) :
    (readLoopIter (.error e) seq now).1
        = some { data := [], timestamp := now,
                 sequence := (seq + 1) % 2 ^ 32, error := some e }
    ∧ ((e = .portClosed ∨ e = .invalidSession) →
        (readLoopIter (.error e) seq now).2.2 = .stop)
    ∧ (e ≠ .portClosed → e ≠ .invalidSession →
        (readLoopIter (.error e) seq now).2.2 = .continueLoop true) := by
  refine ⟨rfl, ?_, ?_⟩
  · intro h
    cases h with
    | inl h => subst h; rfl
    | inr h => subst h; rfl
  · intro h1 h2
    simp [readLoopIter, h1, h2]

/-- Witness for the C4 theorem: a fatal `PortClosed` stops the loop, an
opaque hardware error keeps it looping with backoff. -/
theorem readLoop_error_classification_witness :
    (readLoopIter (.error .portClosed) 5 100).2.2 = .stop
    ∧ (readLoopIter (.error (.hardware "glitch")) 5 100).2.2 = .continueLoop true :=
  ⟨(readLoop_error_classification .portClosed 5 100).2.1 (Or.inl rfl),
   (readLoop_error_classification (.hardware "glitch") 5 100).2.2
     (by decide) (by decide)⟩

/-- C6: a `Manager.Read` whose hardware read succeeds returns the bytes
with a nil error — the empty result included — and the read loop treats
a successful empty read as a no-op iteration, broadcasting an event only
for a non-empty read or an error. -/
theorem read_success_and_empty_skip (m : Manager) (pn sid : String)
    (s : Session) (hv : m.validateSession pn sid = .ok s) :
    (∀ maxB bytes now, (m.read pn sid maxB (.ok bytes) now).1 = .ok bytes)
    ∧ (∀ maxB now, (m.read pn sid maxB (.ok []) now).1 = .ok [])
    ∧ (∀ seq now, readLoopIter (.ok []) seq now = (none, seq, .continueLoop false))
    ∧ (∀ data seq now, data ≠ [] →
        (readLoopIter (.ok data) seq now).1
          = some { data := data, timestamp := now,
                   sequence := (seq + 1) % 2 ^ 32, error := none })
    ∧ (∀ e seq now, (readLoopIter (.error e) seq now).1
          = some { data := [], timestamp := now,
                   sequence := (seq + 1) % 2 ^ 32, error := some e }) := by
  refine ⟨?_, ?_, ?_, ?_, ?_⟩
  · intro maxB bytes now
    simp only [Manager.read, hv]
  · intro maxB now
    simp only [Manager.read, hv]
  · intro seq now
    rfl
  · intro data seq now hd
    simp [readLoopIter, hd]
  · intro e seq now
    rfl

/-- Witness for the C6 theorem on the concrete open session: an empty
successful read yields `ok []`. -/
theorem read_success_and_empty_skip_witness :
    demoManager.validateSession "COM1" "id-1" = .ok demoSession
    ∧ (demoManager.read "COM1" "id-1" 64 (.ok []) 3).1 = .ok []
    ∧ readLoopIter (.ok []) 7 3 = (none, 7, .continueLoop false) :=
  ⟨rfl,
   (read_success_and_empty_skip demoManager "COM1" "id-1" demoSession rfl).2.1 64 3,
   (read_success_and_empty_skip demoManager "COM1" "id-1" demoSession rfl).2.2.1 7 3⟩

/-! ## C7: which operations touch the statistics -/

/-- A successful `Configure` leaves the statistics — the last-activity
timestamp included — untouched, replacing only the stored config: the
counterexample to the claim that all three of Read/Write/Configure
update last-activity. -/
theorem configure_keeps_statistics :
    (demoManager.configure "COM1" "id-1"
        { DefaultConfig with baudRate := 115200 } none none).1 = none
    ∧ (lookupKey "COM1" (demoManager.configure "COM1" "id-1"
        { DefaultConfig with baudRate := 115200 } none none).2.sessions).map
          (fun s => s.statistics)
        = (lookupKey "COM1" demoManager.sessions).map (fun s => s.statistics) :=
  ⟨rfl, rfl⟩

/-- C7 (amended): a successful `Write` or `Read` updates the session's
statistics and last-activity timestamp; a successful `Configure`
replaces the stored config but leaves statistics and last-activity
unchanged. -/
theorem operations_statistics_update (m : Manager) (pn sid : String)
    (s : Session) (hv : m.validateSession pn sid = .ok s) :
    (∀ data n now,
        lookupKey s.portName (m.write pn sid data (n, none) now).2.sessions
          = some { s with statistics :=
              { s.statistics with bytesSent := s.statistics.bytesSent + n,
                                  lastActivity := now } })
    ∧ (∀ maxB bytes now,
        lookupKey s.portName (m.read pn sid maxB (.ok bytes) now).2.sessions
          = some { s with statistics :=
              { s.statistics with
                  bytesReceived := s.statistics.bytesReceived + bytes.length,
                  lastActivity := now } })
    ∧ (∀ cfg hwM hwT, (m.configure pn sid cfg hwM hwT).1 = none →
        lookupKey s.portName (m.configure pn sid cfg hwM hwT).2.sessions
          = some { s with config := cfg }) := by
  refine ⟨?_, ?_, ?_⟩
  · intro data n now
    simp only [Manager.write, hv]
    rw [lookupKey_updateSession]
    simp
  · intro maxB bytes now
    simp only [Manager.read, hv]
    rw [lookupKey_updateSession]
    simp
  · intro cfg hwM hwT hok
    simp only [Manager.configure, hv] at hok ⊢
    cases hval : cfg.Validate with
    | some e => rw [hval] at hok; exact absurd hok (by simp)
    | none =>
      rw [hval] at hok
      cases hwM with
      | some e => exact absurd hok (by simp)
      | none =>
        cases hq : (if cfg.readTimeoutMs > 0 then hwT else none) with
        | some e => rw [hq] at hok; exact absurd hok (by simp)
        | none => simp [lookupKey_updateSession]

/-- Witness for the amended C7 theorem: on the concrete session, a write
of 2 bytes at time 5 moves last-activity to 5 and bytes-sent to 2, and a
successful configure leaves the statistics record intact. -/
theorem operations_statistics_update_witness :
    lookupKey "COM1" (demoManager.write "COM1" "id-1" [10, 20] (2, none) 5).2.sessions
      = some { demoSession with statistics :=
          { demoSession.statistics with bytesSent := 2, lastActivity := 5 } }
    ∧ lookupKey "COM1" (demoManager.configure "COM1" "id-1"
        { DefaultConfig with baudRate := 115200 } none none).2.sessions
      = some { demoSession with config := { DefaultConfig with baudRate := 115200 } } :=
  ⟨(operations_statistics_update demoManager "COM1" "id-1" demoSession rfl).1
      [10, 20] 2 5,
   (operations_statistics_update demoManager "COM1" "id-1" demoSession rfl).2.2
      { DefaultConfig with baudRate := 115200 } none none rfl⟩

/-! ## Sequence numbers of the read loop (C5) -/

theorem readLoopRun_skip (now : Nat) (rest : List (Except SerialError (List Nat) × Nat))
    (s : Nat) : readLoopRun ((.ok [], now) :: rest) s = readLoopRun rest s := rfl

theorem readLoopRun_emit_ok (data : List Nat) (now : Nat)
    (rest : List (Except SerialError (List Nat) × Nat)) (s : Nat) (h : data ≠ []) :
    readLoopRun ((.ok data, now) :: rest) s
      = { data := data, timestamp := now, sequence := (s + 1) % 2 ^ 32,
          error := none } :: readLoopRun rest ((s + 1) % 2 ^ 32) := by
  simp [readLoopRun, readLoopIter, h]

theorem readLoopRun_error_fatal (e : SerialError) (now : Nat)
    (rest : List (Except SerialError (List Nat) × Nat)) (s : Nat)
    (h : e = .portClosed ∨ e = .invalidSession) :
    readLoopRun ((.error e, now) :: rest) s
      = [{ data := [], timestamp := now, sequence := (s + 1) % 2 ^ 32,
           error := some e }] := by
  rcases h with h | h <;> subst h <;> rfl

theorem readLoopRun_error_nonfatal (e : SerialError) (now : Nat)
    (rest : List (Except SerialError (List Nat) × Nat)) (s : Nat)
    (h1 : e ≠ .portClosed) (h2 : e ≠ .invalidSession) :
    readLoopRun ((.error e, now) :: rest) s
      = { data := [], timestamp := now, sequence := (s + 1) % 2 ^ 32,
          error := some e } :: readLoopRun rest ((s + 1) % 2 ^ 32) := by
  simp [readLoopRun, readLoopIter, h1, h2]

/-- The sequence fields of a run form an arithmetic progression mod
`2^32` continuing from `s` (the `uint32` counter wraps). -/
theorem readLoopRun_sequence_map
    (results : List (Except SerialError (List Nat) × Nat)) :
    ∀ s : Nat, (readLoopRun results s).map DataEvent.sequence
      = (List.range (readLoopRun results s).length).map
          (fun k => (s + k + 1) % 2 ^ 32) := by
  induction results with
  | nil => intro s; rfl
  | cons hd tl ih =>
    intro s
    obtain ⟨res, now⟩ := hd
    have hstep : ∀ (ev : DataEvent) (s' : Nat), ev.sequence = (s + 1) % 2 ^ 32 →
        s' = (s + 1) % 2 ^ 32 →
        (ev :: readLoopRun tl s').map DataEvent.sequence
          = (List.range (ev :: readLoopRun tl s').length).map
              (fun k => (s + k + 1) % 2 ^ 32) := by
      intro ev s' hev hs'
      rw [List.length_cons, List.range_succ_eq_map, List.map_cons, List.map_cons,
        ih s', List.map_map]
      subst hs'
      rw [hev]
      congr 1
      apply List.map_congr_left
      intro a _
      show ((s + 1) % 2 ^ 32 + a + 1) % 2 ^ 32 = (s + (a + 1) + 1) % 2 ^ 32
      rw [Nat.add_assoc ((s + 1) % 2 ^ 32) a 1, Nat.mod_add_mod]
      congr 1
      omega
    cases res with
    | ok data =>
      by_cases hd0 : data = []
      · subst hd0
        rw [readLoopRun_skip]
        exact ih s
      · rw [readLoopRun_emit_ok data now tl s hd0]
        exact hstep _ _ rfl rfl
    | error e =>
      by_cases hfat : e = .portClosed ∨ e = .invalidSession
      · rw [readLoopRun_error_fatal e now tl s hfat]
        rfl
      · push_neg at hfat
        rw [readLoopRun_error_nonfatal e now tl s hfat.1 hfat.2]
        exact hstep _ _ rfl rfl

theorem readLoopRun_sequence_getElem
    (results : List (Except SerialError (List Nat) × Nat)) (s k : Nat)
    (hk : k < (readLoopRun results s).length) :
    (readLoopRun results s)[k].sequence = (s + k + 1) % 2 ^ 32 := by
  have hmap := readLoopRun_sequence_map results s
  have h2 : Option.map DataEvent.sequence (readLoopRun results s)[k]?
      = Option.map (fun j => (s + j + 1) % 2 ^ 32)
          (List.range (readLoopRun results s).length)[k]? := by
    rw [← List.getElem?_map, ← List.getElem?_map, hmap]
  rw [List.getElem?_eq_getElem hk,
    List.getElem?_eq_getElem (by simpa using hk)] at h2
  simpa using h2

/-- C5 (amended): the events a subscriber receives are a sublist of the
loop's broadcasts, and as long as the run emits fewer than `2^32` events
— the sequence field is a `uint32` counter that wraps past that — the
received sequence numbers strictly increase. -/
theorem subscriber_sequence_strictMono
    (results : List (Except SerialError (List Nat) × Nat))
    (received : List DataEvent)
    (hsub : received.Sublist (readLoopRun results 0))
    (hlen : (readLoopRun results 0).length < 2 ^ 32) :
    received.Pairwise (fun a b => a.sequence < b.sequence) := by
  apply List.Pairwise.sublist hsub
  rw [List.pairwise_iff_getElem]
  intro i j hi hj hij
  rw [readLoopRun_sequence_getElem results 0 i hi,
    readLoopRun_sequence_getElem results 0 j hj]
  have hj1 : j + 1 ≤ (readLoopRun results 0).length := hj
  rw [Nat.zero_add, Nat.zero_add, Nat.mod_eq_of_lt (by omega),
    Nat.mod_eq_of_lt (by omega)]
  omega

/-- Witness for the amended C5 theorem on a short two-read run. -/
theorem subscriber_sequence_strictMono_witness :
    (readLoopRun [(.ok [1], 0), (.ok [2], 1)] 0).Pairwise
      (fun a b => a.sequence < b.sequence) :=
  subscriber_sequence_strictMono [(.ok [1], 0), (.ok [2], 1)]
    (readLoopRun [(.ok [1], 0), (.ok [2], 1)] 0)
    (List.Sublist.refl _) (by decide)

/-- A run over `n` one-byte reads emits exactly `n` events. -/
theorem readLoopRun_replicate_length (n : Nat) :
    ∀ s, (readLoopRun (List.replicate n ((Except.ok [1] :
        Except SerialError (List Nat)), 0)) s).length = n := by
  induction n with
  | zero => intro s; rfl
  | succ k ih =>
    intro s
    rw [List.replicate_succ, readLoopRun_emit_ok _ _ _ _ (by simp)]
    simp [ih]

/-- C5 counterexample: over a run of `2^32` successful one-byte reads
the `uint32` sequence counter wraps, so the subscriber receiving the
last two events sees the sequence drop from `2^32 - 1` to `0` — the
sequence numbers of received events do not always strictly increase. -/
theorem subscriber_sequence_wraps :
    ((readLoopRun (List.replicate (2 ^ 32) ((Except.ok [1] :
        Except SerialError (List Nat)), 0)) 0).drop (2 ^ 32 - 2)).Sublist
      (readLoopRun (List.replicate (2 ^ 32) ((Except.ok [1] :
        Except SerialError (List Nat)), 0)) 0)
    ∧ ¬ ((readLoopRun (List.replicate (2 ^ 32) ((Except.ok [1] :
        Except SerialError (List Nat)), 0)) 0).drop (2 ^ 32 - 2)).Pairwise
      (fun a b => a.sequence < b.sequence) := by
  refine ⟨List.drop_sublist _ _, ?_⟩
  intro hpw
  have hlen : (readLoopRun (List.replicate (2 ^ 32) ((Except.ok [1] :
      Except SerialError (List Nat)), 0)) 0).length = 2 ^ 32 :=
    readLoopRun_replicate_length (2 ^ 32) 0
  rw [List.pairwise_iff_getElem] at hpw
  have hdl : ((readLoopRun (List.replicate (2 ^ 32) ((Except.ok [1] :
      Except SerialError (List Nat)), 0)) 0).drop (2 ^ 32 - 2)).length = 2 := by
    rw [List.length_drop, hlen]
    norm_num
  have h01 := hpw 0 1 (by omega) (by omega) (by omega)
  rw [List.getElem_drop, List.getElem_drop] at h01
  rw [readLoopRun_sequence_getElem _ 0 (2 ^ 32 - 2 + 0) (by omega),
    readLoopRun_sequence_getElem _ 0 (2 ^ 32 - 2 + 1) (by omega)] at h01
  have e1 : (0 + (2 ^ 32 - 2 + 0) + 1) % 2 ^ 32 = 2 ^ 32 - 1 := by
    rw [Nat.mod_eq_of_lt (by omega)]
    omega
  have e2 : (0 + (2 ^ 32 - 2 + 1) + 1) % 2 ^ 32 = 0 := by
    have : 0 + (2 ^ 32 - 2 + 1) + 1 = 2 ^ 32 := by omega
    rw [this, Nat.mod_self]
  rw [e1, e2] at h01
  omega

/-! ## Scanner: sorted, stable scans (C8) and the watch loop (C9) -/

theorem portsEqual_refl (s : Scanner) (l : List PortInfo) :
    s.portsEqual l l = true := by
  unfold Scanner.portsEqual
  rw [Bool.and_eq_true]
  refine ⟨by simp, ?_⟩
  induction l with
  | nil => rfl
  | cons a t ih => simpa using ih

/-- C8: `Scan` returns its list sorted by ascending port name, and two
scans of the same enumerated port set (with the manager registry
unchanged) produce lists the watch loop's `portsEqual` judges equal. -/
theorem scan_sorted_stable (s : Scanner) (enumerated : List PortDetails) :
    (s.scan enumerated).Sorted portInfoLE
    ∧ s.portsEqual (s.scan enumerated) (s.scan enumerated) = true :=
  ⟨List.sorted_insertionSort portInfoLE _, portsEqual_refl s _⟩

/-- C9: a non-positive interval makes `WatchPorts` return its stop
handle before starting the polling goroutine: no tick is ever processed
(no scan runs) and the callback list is empty. -/
theorem watchPorts_nonpositive_interval (s : Scanner) (interval : Int)
    (h : interval ≤ 0) (ticks : List (Option (List PortInfo))) :
    s.watchPorts interval ticks = (0, []) := by
  simp [Scanner.watchPorts, h]

/-- Witness for the C9 theorem at interval `-1` with a pending tick. -/
theorem watchPorts_nonpositive_interval_witness :
    ((-1 : Int) ≤ 0)
    ∧ demoScanner.watchPorts (-1) [some []] = (0, []) :=
  ⟨by decide, watchPorts_nonpositive_interval demoScanner (-1) (by decide) [some []]⟩

/-! ## Line reader (C10) -/

theorem findIdx?_take_not (p : Nat → Bool) :
    ∀ (l : List Nat) (i : Nat), l.findIdx? p = some i →
      ∀ x ∈ l.take i, p x = false := by
  intro l
  induction l with
  | nil =>
    intro i h
    simp at h
  | cons a t ih =>
    intro i h x hx
    rw [List.findIdx?_cons] at h
    by_cases hpa : p a
    · rw [if_pos hpa] at h
      cases h
      simp at hx
    · rw [if_neg hpa, List.findIdx?_succ] at h
      obtain ⟨j, hj, rfl⟩ := Option.map_eq_some'.mp h
      rw [List.take_succ_cons] at hx
      cases hx with
      | head => simpa using hpa
      | tail _ hx => exact ih j hj x hx

/-- C10 (amended): when the subscription channel is closed (no events
left), `ReadLine` returns the whole remaining buffer with a nil error if
it is non-empty — provided it contains no delimiter, for otherwise the
delimiter scan returns the first line before the channel is consulted —
and the `PortClosed` error when the buffer is empty; on the delimiter
path the returned line never contains the delimiter byte. -/
theorem readLine_contract (delim maxLine : Nat) (buffer : List Nat)
    (events : List DataEvent) :
    (buffer.findIdx? (fun b => b = delim) = none → buffer ≠ [] →
        readLine delim maxLine buffer [] = (.ok buffer, []))
    ∧ (buffer = [] → readLine delim maxLine buffer [] = (.error .portClosed, []))
    ∧ (∀ i, buffer.findIdx? (fun b => b = delim) = some i →
        readLine delim maxLine buffer events
            = (.ok (buffer.take i), buffer.drop (i + 1))
        ∧ ∀ x ∈ buffer.take i, x ≠ delim) := by
  refine ⟨?_, ?_, ?_⟩
  · intro hfind hne
    simp only [readLine]
    rw [hfind]
    simp [hne]
  · intro hb
    subst hb
    rfl
  · intro i hfind
    constructor
    · cases events with
      | nil =>
        simp only [readLine]
        rw [hfind]
      | cons ev rest =>
        simp only [readLine]
        rw [hfind]
    · intro x hx
      have := findIdx?_take_not (fun b => b = delim) buffer i hfind x hx
      simpa using this

/-- Witness for the amended C10 theorem: closed channel with a
delimiter-free buffer yields the buffer; empty buffer yields
`PortClosed`; a buffered delimiter yields the first line without it. -/
theorem readLine_contract_witness :
    readLine 10 4096 [5, 6] [] = (.ok [5, 6], [])
    ∧ readLine 10 4096 [] [] = (.error .portClosed, [])
    ∧ readLine 0 4096 [1, 0, 2] [] = (.ok [1], [2]) :=
  ⟨(readLine_contract 10 4096 [5, 6] []).1 (by decide) (by decide),
   (readLine_contract 10 4096 [] []).2.1 rfl,
   ((readLine_contract 0 4096 [1, 0, 2] []).2.2 1 (by decide)).1⟩

/-- C10 counterexample: with delimiter `0` already buffered in
`[1, 0, 2]` and the channel closed, `ReadLine` returns only the first
line `[1]`, not the remaining buffered bytes. -/
theorem readLine_closed_buffer_counterexample :
    readLine 0 4096 [1, 0, 2] [] = (.ok [1], [2])
    ∧ (readLine 0 4096 [1, 0, 2] []).1 ≠ .ok [1, 0, 2] := by
  refine ⟨rfl, ?_⟩
  intro h
  rw [show (readLine 0 4096 [1, 0, 2] []).1 = Except.ok [1] from rfl] at h
  simp at h

end BaudLink
